import Mathlib

/-!
Verification of the media-organizer location-resolution pipeline.

This file is a shallow embedding of the core of the repository
`singharpit2209/memory_organizer`:

* `src/media_organizer/geocoder.py` — coordinate clustering
  (`_group_similar_coordinates`), the cached / retrying resolver
  (`reverse_geocode`) and the batch resolver (`batch_reverse_geocode`);
* `src/media_organizer/file_organizer.py` — `create_location_directory`,
  `copy_file`, `move_file` and `_sanitize_filename`;
* `src/media_organizer/main.py` — the plan/process folder-key computation,
  the fast-mode branch and the sampling fallback of `plan_organization`
  and `process_files`.

Modelling conventions:

* Python floats are modelled as rationals (`ℚ`); coordinates are pairs
  `ℚ × ℚ`.
* The external Nominatim service is an oracle `net : ℕ → NetResponse`
  indexed by the number of network requests issued so far; the geocoder's
  mutable state (cache, request counter, sleeps performed) is threaded
  explicitly through `GeoState`.
* Wall-clock concerns (the 1 s inter-request throttle and the 15-minute
  watchdog of `plan_organization`) are not modelled; the code executed
  once a branch is taken is modelled faithfully.
* The filesystem is a partial map from paths to byte lists.
-/

namespace MediaOrganizer

/-- A GPS coordinate `(latitude, longitude)` as the Python code handles it:
a pair of floats, modelled as rationals. -/
abbrev Coord := ℚ × ℚ

/-- A resolved location `(country, state, city)`, the tuple
`reverse_geocode` returns on success. -/
structure Loc where
  country : String
  state : String
  city : String
deriving DecidableEq

/-! ## Coordinate clustering (`geocoder.py`, `_group_similar_coordinates`) -/

/-- The squared Euclidean distance in lat/lon degree space between two
coordinates, `(lat1 - lat2) ** 2 + (lon1 - lon2) ** 2` of the source. -/
def sqDist (c d : Coord) : ℚ :=
  (c.1 - d.1) ^ 2 + (c.2 - d.2) ^ 2

/-- The source's closeness test
`((lat1 - lat2) ** 2 + (lon1 - lon2) ** 2) ** 0.5 <= tolerance`, stated on
squares: for the nonnegative tolerances the program uses (the default
`0.005` is the only value ever passed), `sqrt d ≤ tol ↔ d ≤ tol ^ 2`. -/
def closeB (c d : Coord) (tol : ℚ) : Bool :=
  decide (sqDist c d ≤ tol ^ 2)

/-- Default `tolerance = 0.005` of `_group_similar_coordinates`. -/
def defaultTolerance : ℚ := 5 / 1000

/-- The greedy single-pass grouping loop of `_group_similar_coordinates`,
on index-tagged coordinates.  The input list is the not-yet-assigned
(`not in used`) coordinates in input order: the first one seeds a new
group, absorbs every later unassigned coordinate within `tol` of the seed,
and the loop continues on the rest.  `fuel` makes the recursion structural;
callers pass the list length, which bounds the recursion depth. -/
def groupLoopFuel (tol : ℚ) : ℕ → List (ℕ × Coord) → List (List (ℕ × Coord))
  | 0, _ => []
  | _ + 1, [] => []
  | fuel + 1, p :: rest =>
      (p :: rest.filter fun q => closeB p.2 q.2 tol) ::
        groupLoopFuel tol fuel (rest.filter fun q => !closeB p.2 q.2 tol)

/-- The grouping loop applied to a full indexed coordinate list. -/
def groupLoop (tol : ℚ) (l : List (ℕ × Coord)) : List (List (ℕ × Coord)) :=
  groupLoopFuel tol l.length l

/-- `_group_similar_coordinates(coordinates, tolerance)`: the groups of
coordinate values, each group led by its seed (the source appends the seed
first, then the absorbed coordinates in input order). -/
def group_similar_coordinates (coords : List Coord) (tol : ℚ) : List (List Coord) :=
  (groupLoop tol coords.enum).map (List.map Prod.snd)

/-! ## The resolver (`geocoder.py`, `reverse_geocode`) -/

/-- One outcome of a `geolocator.reverse` request, as `reverse_geocode`
distinguishes them:

* `success r` — a response with raw data; `r` is what
  `_extract_country_state_city` produced from it (`none` when extraction
  raised, which the source caches and returns all the same);
* `empty` — a falsy `location`/`location.raw` (no data): break, no caching;
* `timedOut` — `GeocoderTimedOut`: retry with exponential backoff;
* `unavailable` — `GeocoderUnavailable`: break;
* `otherError` — any other exception: break. -/
inductive NetResponse where
  | success : Option Loc → NetResponse
  | empty : NetResponse
  | timedOut : NetResponse
  | unavailable : NetResponse
  | otherError : NetResponse
deriving DecidableEq

/-- The cache key `f"{latitude:.6f},{longitude:.6f}"`: the coordinate
rounded to 6 decimal places, modelled as the pair of scaled integers. -/
def cacheKey (lat lon : ℚ) : ℤ × ℤ :=
  (round (lat * 1000000), round (lon * 1000000))

/-- The geocoder's mutable state: the process-lifetime cache
`_geocoding_cache` (an association list, most recent entry first), the
number of network requests issued (`net` is indexed by it), the number of
`reverse_geocode` invocations, and the backoff sleeps performed. -/
structure GeoState where
  cache : List ((ℤ × ℤ) × Option Loc)
  calls : ℕ
  resolves : ℕ
  sleeps : List ℚ
deriving DecidableEq

/-- Lookup in the modelled `_geocoding_cache`. -/
def lookupCache : List ((ℤ × ℤ) × Option Loc) → ℤ × ℤ → Option (Option Loc)
  | [], _ => none
  | (k, v) :: rest, key => if k = key then some v else lookupCache rest key

/-- `base_delay = 1.0` of the retry loop. -/
def baseDelay : ℚ := 1

/-- `max_retries = 3` of the retry loop. -/
def maxRetries : ℕ := 3

/-- The retry loop `for attempt in range(max_retries)` of
`reverse_geocode`: `fuel` is the number of iterations left, `attempt` the
0-based attempt index.  A raw response caches and returns the extracted
result; an empty response, `GeocoderUnavailable` or any other error breaks
out; `GeocoderTimedOut` sleeps `base_delay * 2 ** attempt` and retries
unless this was the last attempt.  Falling out of the loop returns
`None`. -/
def retryLoop (net : ℕ → NetResponse) (key : ℤ × ℤ) :
    ℕ → ℕ → GeoState → Option Loc × GeoState
  | 0, _, s => (none, s)
  | fuel + 1, attempt, s =>
      match net s.calls with
      | .success r =>
          (r, { s with cache := (key, r) :: s.cache, calls := s.calls + 1 })
      | .empty => (none, { s with calls := s.calls + 1 })
      | .timedOut =>
          if fuel = 0 then
            (none, { s with calls := s.calls + 1 })
          else
            retryLoop net key fuel (attempt + 1)
              { s with calls := s.calls + 1,
                       sleeps := s.sleeps ++ [baseDelay * 2 ^ attempt] }
      | .unavailable => (none, { s with calls := s.calls + 1 })
      | .otherError => (none, { s with calls := s.calls + 1 })

/-- `reverse_geocode(latitude, longitude)`: bump the invocation counter,
look the 6-decimal key up in the cache (a hit returns the cached optional
result with no network traffic), otherwise run the retry loop. -/
def reverse_geocode (net : ℕ → NetResponse) (lat lon : ℚ) (s : GeoState) :
    Option Loc × GeoState :=
  let s' : GeoState := { s with resolves := s.resolves + 1 }
  let key := cacheKey lat lon
  match lookupCache s'.cache key with
  | some r => (r, s')
  | none => retryLoop net key maxRetries 0 s'

/-! ## The batch resolver (`geocoder.py`, `batch_reverse_geocode`) -/

/-- The broadcast `for coord in group: results[coord] = result` of
`batch_reverse_geocode`; the results dictionary is a map from coordinate
to stored optional location. -/
def assignGroup (r : Option Loc) (g : List Coord)
    (m : Coord → Option (Option Loc)) : Coord → Option (Option Loc) :=
  g.foldl (fun m' c => fun x => if x = c then some r else m' x) m

/-- The main loop of `batch_reverse_geocode`: resolve each group's
representative `group[0]` once via `reverse_geocode` and broadcast the
result to every coordinate of the group.  (An empty group — impossible for
the clusterer's output — would raise on `group[0]` and be skipped by the
`except` handler, assigning to no coordinate.) -/
def batch_fold (net : ℕ → NetResponse) :
    List (List Coord) → (Coord → Option (Option Loc)) → GeoState →
      (Coord → Option (Option Loc)) × GeoState
  | [], m, s => (m, s)
  | [] :: rest, m, s => batch_fold net rest m s
  | (rep :: gt) :: rest, m, s =>
      let rs := reverse_geocode net rep.1 rep.2 s
      batch_fold net rest (assignGroup rs.1 (rep :: gt) m) rs.2

/-- `batch_reverse_geocode(coordinates)`: group with the default tolerance,
then resolve one representative per group, broadcasting each result. -/
def batch_reverse_geocode (net : ℕ → NetResponse) (coords : List Coord)
    (s : GeoState) : (Coord → Option (Option Loc)) × GeoState :=
  batch_fold net (group_similar_coordinates coords defaultTolerance)
    (fun _ => none) s

/-! ## Directory names (`file_organizer.py`) -/

/-- The characters `'<>:"/\\|?*'` that `_sanitize_filename` replaces. -/
def invalidFilenameChars : List Char :=
  ['<', '>', ':', '"', '/', '\\', '|', '?', '*']

/-- The invalid-character replacement loop of `_sanitize_filename`. -/
def replaceInvalidChars (s : String) : String :=
  String.mk (s.data.map fun c => if invalidFilenameChars.contains c then '_' else c)

/-- A character stripped by Python's `strip('. ')`. -/
def isStripChar (c : Char) : Bool := c = '.' || c = ' '

/-- Python's `strip('. ')`: drop leading and trailing dots and spaces. -/
def stripDotsSpaces (s : List Char) : List Char :=
  ((s.dropWhile isStripChar).reverse.dropWhile isStripChar).reverse

/-- Python's `re.sub(r'\s+', ' ', ...)`: collapse every whitespace run to
a single space.  The flag records whether the previous character was part
of a whitespace run. -/
def collapseWhitespaceAux : List Char → Bool → List Char
  | [], _ => []
  | c :: rest, inRun =>
      if c.isWhitespace then
        if inRun then collapseWhitespaceAux rest true
        else ' ' :: collapseWhitespaceAux rest true
      else c :: collapseWhitespaceAux rest false

/-- `_sanitize_filename(filename)` restricted to ASCII input, which every
name this development evaluates it on is.  On ASCII input the source's
Hindi and Arabic mapping tables never match (all their keys are
non-ASCII), and its NFKD-normalize-then-ASCII-encode transliteration is
the identity, so the function reduces to: replace invalid filesystem
characters with `'_'`, strip leading/trailing `'. '`, collapse whitespace
runs, truncate to 100 characters, and fall back to `"Unknown"` when the
result is empty. -/
def sanitize_filename (name : String) : String :=
  let replaced := replaceInvalidChars name
  let stripped := stripDotsSpaces replaced.data
  let collapsed := collapseWhitespaceAux stripped false
  let truncated := collapsed.take 100
  if truncated.isEmpty then "Unknown" else String.mk truncated

/-- `create_location_directory(country, state, city)` with the default
`folder_structure = "city"` (what `main.py` uses): the list of path
components of the directory that is created.  When all three sanitized
fields are `"Unknown"` the path collapses to the single
`destination_root/Unknown` folder.  (The `_directory_cache` is omitted:
the created path is a pure function of the key, so the cache is
transparent.) -/
def create_location_directory (destinationRoot country state city : String) :
    List String :=
  let safeCountry := sanitize_filename country
  let safeState := sanitize_filename state
  let safeCity := sanitize_filename city
  if safeCountry = "Unknown" ∧ safeState = "Unknown" ∧ safeCity = "Unknown" then
    [destinationRoot, "Unknown"]
  else
    [destinationRoot, safeCountry, safeState, safeCity]

/-! ## Plan/process folder keys and degraded modes (`main.py`) -/

/-- The folder key of the result-processing loop of `plan_organization`
(lines 335–343): `location = geocoding_results.get(coordinates)` has
already flattened a stored `None` and a missing key into `none`; a truthy
tuple yields `f"{country}/{state}/{city}"`, otherwise `"Unknown"`. -/
def plan_folder_key (location : Option Loc) : String :=
  match location with
  | some loc => loc.country ++ "/" ++ loc.state ++ "/" ++ loc.city
  | none => "Unknown"

/-- The folder key of the sampling-fallback loops of `plan_organization`
(lines 259–268) and `process_files` (lines 538–548): membership
`coordinates in geocoding_results` is tested first, then the stored value;
a coordinate absent from the sample's result mapping, or present with a
stored `None`, routes to `"Unknown"`. -/
def fallback_folder_key (results : Coord → Option (Option Loc)) (c : Coord) :
    String :=
  match results c with
  | some (some loc) => loc.country ++ "/" ++ loc.state ++ "/" ++ loc.city
  | some none => "Unknown"
  | none => "Unknown"

/-- Python's `l[::step]` for `step ≥ 1`: every `step`-th element starting
from the first.  `fuel` (the callers pass the list length) makes the
recursion structural. -/
def everyNthFuel {α : Type} : ℕ → List α → ℕ → List α
  | 0, _, _ => []
  | _ + 1, [], _ => []
  | fuel + 1, a :: rest, step => a :: everyNthFuel fuel (rest.drop (step - 1)) step

/-- Python's `l[::step]` for `step ≥ 1`. -/
def every_nth {α : Type} (l : List α) (step : ℕ) : List α :=
  everyNthFuel l.length l step

/-- The fallback sample of `plan_organization`/`process_files`:
`sample_size = min(5000, len(all_coordinates))`; when the list is longer,
`step = len(all_coordinates) // sample_size` and the sample is
`all_coordinates[::step][:sample_size]`, otherwise the whole list. -/
def sample_coordinates (allCoords : List Coord) : List Coord :=
  let sampleSize := min 5000 allCoords.length
  if sampleSize < allCoords.length then
    let step := allCoords.length / sampleSize
    (every_nth allCoords step).take sampleSize
  else
    allCoords

/-- The plan's folder aggregation `folder_structure[folder_key]`, a map
from folder key to the file paths appended under it. -/
abbrev FolderStructure := String → List String

/-- `folder_structure.setdefault(key, []).append(file_path)` as
`plan_organization` performs it. -/
def addFile (fs : FolderStructure) (key file : String) : FolderStructure :=
  fun k => if k = key then fs k ++ [file] else fs k

/-- The fast-mode branch of `plan_organization` (lines 212–220 followed by
the unconditional result-processing loop of lines 333–349): with
`geocoding_results = {}` and no geocoder call, every file of
`coordinates_data` is appended to the `"Unknown"` bucket by the fast-mode
loop and then again by the processing loop (whose `get` returns `None` for
every coordinate).  The geocoder state is returned untouched: the branch
issues no resolution and no network request. -/
def plan_fast_mode (coordinatesData : List (String × Coord))
    (fs0 : FolderStructure) (s : GeoState) : FolderStructure × GeoState :=
  let fs1 := coordinatesData.foldl (fun fs p => addFile fs "Unknown" p.1) fs0
  let geocodingResults : Coord → Option (Option Loc) := fun _ => none
  let fs2 := coordinatesData.foldl (fun fs p =>
    match (geocodingResults p.2).join with
    | some loc => addFile fs (loc.country ++ "/" ++ loc.state ++ "/" ++ loc.city) p.1
    | none => addFile fs "Unknown" p.1) fs1
  (fs2, s)

/-! ## File placement (`file_organizer.py`, `copy_file` / `move_file`) -/

/-- The filesystem as `copy_file`/`move_file` observe it: a partial map
from paths to file contents (byte lists).  `_files_are_identical` is
content equality in this model (the source compares sizes, then content
chunks). -/
structure FS where
  files : String → Option (List ℕ)

/-- `Path(source_path).name`: the final path component (the characters
after the last path separator). -/
def baseName (p : String) : String :=
  String.mk ((p.data.reverse.takeWhile fun c => c ≠ '/').reverse)

/-- `copy_file(source_path, destination_path)` returning
`(success, filesystem, skipped_files_count)`.  A missing source fails; an
existing destination file is skipped — identical or not — incrementing the
skipped counter and reporting success; otherwise the content is copied. -/
def copy_file (fs : FS) (skipped : ℕ) (sourcePath destDir : String) :
    Bool × FS × ℕ :=
  match fs.files sourcePath with
  | none => (false, fs, skipped)
  | some content =>
      let destFile := destDir ++ "/" ++ baseName sourcePath
      match fs.files destFile with
      | some destContent =>
          if destContent = content then (true, fs, skipped + 1)
          else (true, fs, skipped + 1)
      | none =>
          (true, ⟨fun p => if p = destFile then some content else fs.files p⟩,
            skipped)

/-- `move_file(source_path, destination_path)`: as `copy_file`, but a
performed move also removes the source. -/
def move_file (fs : FS) (skipped : ℕ) (sourcePath destDir : String) :
    Bool × FS × ℕ :=
  match fs.files sourcePath with
  | none => (false, fs, skipped)
  | some content =>
      let destFile := destDir ++ "/" ++ baseName sourcePath
      match fs.files destFile with
      | some destContent =>
          if destContent = content then (true, fs, skipped + 1)
          else (true, fs, skipped + 1)
      | none =>
          (true,
            ⟨fun p =>
              if p = destFile then some content
              else if p = sourcePath then none else fs.files p⟩,
            skipped)

end MediaOrganizer

namespace MediaOrganizer

/-! ## Lemmas about the clusterer -/

theorem groupLoopFuel_flatten_perm (tol : ℚ) :
    ∀ (fuel : ℕ) (l : List (ℕ × Coord)), l.length ≤ fuel →
      (groupLoopFuel tol fuel l).flatten.Perm l := by
  intro fuel
  induction fuel with
  | zero =>
      intro l hl
      have : l = [] := List.eq_nil_of_length_eq_zero (Nat.le_zero.mp hl)
      subst this
      simp [groupLoopFuel]
  | succ n ih =>
      intro l hl
      match l with
      | [] => simp [groupLoopFuel]
      | p :: rest =>
          have hrest : rest.length ≤ n := by
            simpa using Nat.succ_le_succ_iff.mp (by simpa using hl)
          have hfil : (rest.filter fun q => !closeB p.2 q.2 tol).length ≤ n :=
            le_trans (List.length_filter_le _ rest) hrest
          have ihp := ih _ hfil
          show ((p :: rest.filter fun q => closeB p.2 q.2 tol) ::
              groupLoopFuel tol n (rest.filter fun q => !closeB p.2 q.2 tol)).flatten.Perm
              (p :: rest)
          rw [List.flatten_cons]
          show (p :: ((rest.filter fun q => closeB p.2 q.2 tol) ++ _)).Perm (p :: rest)
          refine List.Perm.cons p ?_
          exact ((List.Perm.append_left _ ihp).trans
            (List.filter_append_perm _ rest))

theorem groupLoopFuel_ne_nil (tol : ℚ) :
    ∀ (fuel : ℕ) (l : List (ℕ × Coord)) (g : List (ℕ × Coord)),
      g ∈ groupLoopFuel tol fuel l → g ≠ [] := by
  intro fuel
  induction fuel with
  | zero => intro l g hg; simp [groupLoopFuel] at hg
  | succ n ih =>
      intro l g hg
      match l with
      | [] => simp [groupLoopFuel] at hg
      | p :: rest =>
          simp only [groupLoopFuel, List.mem_cons] at hg
          rcases hg with h | h
          · subst h; simp
          · exact ih _ g h

theorem mem_of_mem_groupLoopFuel (tol : ℚ) :
    ∀ (fuel : ℕ) (l : List (ℕ × Coord)) (g : List (ℕ × Coord)) (q : ℕ × Coord),
      g ∈ groupLoopFuel tol fuel l → q ∈ g → q ∈ l := by
  intro fuel
  induction fuel with
  | zero => intro l g q hg _; simp [groupLoopFuel] at hg
  | succ n ih =>
      intro l g q hg hq
      match l with
      | [] => simp [groupLoopFuel] at hg
      | p :: rest =>
          simp only [groupLoopFuel, List.mem_cons] at hg
          rcases hg with h | h
          · subst h
            rcases List.mem_cons.mp hq with h | h
            · exact h ▸ List.mem_cons_self p rest
            · exact List.mem_cons_of_mem p (List.mem_of_mem_filter h)
          · exact List.mem_cons_of_mem p
              (List.mem_of_mem_filter (ih _ g q h hq))

theorem closeB_self (c : Coord) (tol : ℚ) : closeB c c tol = true := by
  simp only [closeB, sqDist, decide_eq_true_eq]
  have : (c.1 - c.1) ^ 2 + (c.2 - c.2) ^ 2 = 0 := by ring
  rw [this]
  positivity

theorem groupLoopFuel_head_close (tol : ℚ) :
    ∀ (fuel : ℕ) (l : List (ℕ × Coord)) (a : ℕ × Coord) (t : List (ℕ × Coord)),
      a :: t ∈ groupLoopFuel tol fuel l →
        ∀ q ∈ a :: t, closeB a.2 q.2 tol = true := by
  intro fuel
  induction fuel with
  | zero => intro l a t hg; simp [groupLoopFuel] at hg
  | succ n ih =>
      intro l a t hg q hq
      match l with
      | [] => simp [groupLoopFuel] at hg
      | p :: rest =>
          simp only [groupLoopFuel, List.mem_cons] at hg
          rcases hg with h | h
          · have ha : a = p := by
              have := congrArg (fun x => x.headI) h
              simpa using this
            subst ha
            have ht : t = rest.filter fun q => closeB a.2 q.2 tol := by
              have := congrArg (fun x => x.tail) h
              simpa using this
            rcases List.mem_cons.mp hq with h1 | h1
            · subst h1; exact closeB_self _ tol
            · rw [ht] at h1
              exact (List.mem_filter.mp h1).2
          · exact ih _ a t h q hq

theorem groupLoopFuel_pairwise_value (tol : ℚ) :
    ∀ (fuel : ℕ) (l : List (ℕ × Coord)),
      (groupLoopFuel tol fuel l).Pairwise
        (fun g1 g2 => ∀ p ∈ g1, ∀ q ∈ g2, p.2 ≠ q.2) := by
  intro fuel
  induction fuel with
  | zero => intro l; simp [groupLoopFuel]
  | succ n ih =>
      intro l
      match l with
      | [] => simp [groupLoopFuel]
      | p :: rest =>
          simp only [groupLoopFuel]
          refine List.Pairwise.cons ?_ (ih _)
          intro g hg x hx y hy hxy
          have hxc : closeB p.2 x.2 tol = true :=
            groupLoopFuel_head_close tol (n + 1) (p :: rest) p _
              (by simp [groupLoopFuel]) x hx
          have hyr : y ∈ rest.filter fun q => !closeB p.2 q.2 tol :=
            mem_of_mem_groupLoopFuel tol n _ g y hg hy
          have hyc : closeB p.2 y.2 tol = false := by
            have := List.of_mem_filter hyr
            simpa using this
          rw [hxy] at hxc
          rw [hxc] at hyc
          simp at hyc

end MediaOrganizer

namespace MediaOrganizer

theorem enum_nodup {α : Type} (l : List α) : l.enum.Nodup :=
  List.Nodup.of_map Prod.fst (List.nodup_enum_map_fst l)

theorem snd_mem_of_mem_enum {α : Type} {l : List α} {q : ℕ × α}
    (h : q ∈ l.enum) : q.2 ∈ l := by
  have := List.mem_map_of_mem Prod.snd h
  rwa [List.enum_map_snd] at this

/-- C1.  For every finite coordinate sequence and every tolerance, the
greedy grouping loop of `_group_similar_coordinates` partitions the
index-tagged input: the groups' members taken together are a permutation
of the indexed input (so every input coordinate, identified by its index,
appears in exactly one group, with multiplicity one), no group is empty,
and no index occurs in two distinct groups. -/
theorem group_similar_coordinates_partition (coords : List Coord) (tol : ℚ) :
    (groupLoop tol coords.enum).flatten.Perm coords.enum ∧
    (∀ g ∈ groupLoop tol coords.enum, g ≠ []) ∧
    (groupLoop tol coords.enum).Pairwise
      (fun g1 g2 => ∀ i c1 c2, (i, c1) ∈ g1 → (i, c2) ∈ g2 → False) := by
  have hperm : (groupLoop tol coords.enum).flatten.Perm coords.enum :=
    groupLoopFuel_flatten_perm tol coords.enum.length coords.enum le_rfl
  refine ⟨hperm, fun g hg => groupLoopFuel_ne_nil tol _ _ g hg, ?_⟩
  have hnd : (groupLoop tol coords.enum).flatten.Nodup :=
    hperm.nodup_iff.mpr (enum_nodup coords)
  have hdisj := (List.nodup_flatten.mp hnd).2
  refine hdisj.imp_of_mem ?_
  intro g1 g2 hg1 hg2 hd i c1 c2 h1 h2
  have m1 : (i, c1) ∈ coords.enum :=
    hperm.mem_iff.mp (List.mem_flatten_of_mem hg1 h1)
  have m2 : (i, c2) ∈ coords.enum :=
    hperm.mem_iff.mp (List.mem_flatten_of_mem hg2 h2)
  have e1 := List.mk_mem_enum_iff_getElem?.mp m1
  have e2 := List.mk_mem_enum_iff_getElem?.mp m2
  have : c1 = c2 := by
    rw [e1] at e2
    exact Option.some.inj e2
  subst this
  exact hd h1 h2

/-- C6, counterexample.  At the default tolerance `0.005`, the three
coordinates `(0,0)`, `(0.005,0)`, `(-0.005,0)` form one group (each is
within tolerance of the seed `(0,0)`), yet the members `(0.005,0)` and
`(-0.005,0)` are at Euclidean distance `0.01 > 0.005` from each other: a
group is not a set of mutually-within-tolerance coordinates. -/
theorem group_similar_coordinates_not_mutual :
    group_similar_coordinates [((0:ℚ), (0:ℚ)), (1/200, 0), (-1/200, 0)] (1/200)
        = [[(0, 0), (1/200, 0), (-1/200, 0)]] ∧
      closeB (1/200, 0) (-1/200, 0) (1/200) = false := by
  constructor
  · norm_num [group_similar_coordinates, groupLoop, groupLoopFuel, List.enum,
      List.enumFrom, List.filter, closeB, sqDist]
  · simp only [closeB, sqDist, decide_eq_false_iff_not]
    norm_num

/-- C6, amended.  Every member of a group produced by
`_group_similar_coordinates` is within the tolerance of the group's seed
(its first element); consequently any two members of one group are within
twice the tolerance of each other — but not, in general, within the
tolerance itself. -/
theorem group_members_close_to_seed (coords : List Coord) (tol : ℚ)
    (g : List Coord) (hg : g ∈ group_similar_coordinates coords tol)
    (a : Coord) (t : List Coord) (hat : g = a :: t) :
    (∀ c ∈ g, closeB a c tol = true) ∧
    (∀ c ∈ g, ∀ d ∈ g, sqDist c d ≤ (2 * tol) ^ 2) := by
  obtain ⟨gi, hgi, hmap⟩ := List.mem_map.mp hg
  obtain ⟨ai, ti, rfl⟩ : ∃ ai ti, gi = ai :: ti := by
    cases gi with
    | nil => rw [← hmap] at hat; simp at hat
    | cons ai ti => exact ⟨ai, ti, rfl⟩
  have ha : ai.2 = a := by
    have := congrArg List.headI hmap
    rw [hat] at this
    simpa using this
  have hhead := groupLoopFuel_head_close tol coords.enum.length coords.enum ai ti hgi
  have hclose : ∀ c ∈ g, closeB a c tol = true := by
    intro c hc
    rw [← hmap] at hc
    obtain ⟨q, hq, rfl⟩ := List.mem_map.mp hc
    rw [← ha]
    exact hhead q hq
  refine ⟨hclose, ?_⟩
  intro c hc d hd
  have hc2 : sqDist a c ≤ tol ^ 2 := by
    have := hclose c hc
    simpa [closeB] using this
  have hd2 : sqDist a d ≤ tol ^ 2 := by
    have := hclose d hd
    simpa [closeB] using this
  simp only [sqDist] at hc2 hd2 ⊢
  nlinarith [sq_nonneg ((a.1 - c.1) - (a.1 - d.1)),
    sq_nonneg ((a.2 - c.2) - (a.2 - d.2)),
    sq_nonneg ((a.1 - c.1) + (a.1 - d.1)),
    sq_nonneg ((a.2 - c.2) + (a.2 - d.2))]

/-- Witness for the amended C6 theorem at a concrete input: the singleton
input `[(0,0)]` with tolerance `0` yields the single group `[(0,0)]`,
whose members are all within tolerance `0` of the seed. -/
theorem group_members_close_to_seed_witness :
    (∀ c ∈ [((0:ℚ), (0:ℚ))], closeB (0, 0) c 0 = true) ∧
    (∀ c ∈ [((0:ℚ), (0:ℚ))], ∀ d ∈ [((0:ℚ), (0:ℚ))],
      sqDist c d ≤ (2 * 0) ^ 2) :=
  group_members_close_to_seed [((0:ℚ), (0:ℚ))] 0 [(0, 0)]
    (by norm_num [group_similar_coordinates, groupLoop, groupLoopFuel,
      List.enum, List.enumFrom])
    (0, 0) [] rfl

end MediaOrganizer

namespace MediaOrganizer

/-! ## Lemmas about the resolver -/

theorem retryLoop_resolves (net : ℕ → NetResponse) (key : ℤ × ℤ) :
    ∀ (fuel attempt : ℕ) (s : GeoState),
      (retryLoop net key fuel attempt s).2.resolves = s.resolves := by
  intro fuel
  induction fuel with
  | zero => intro attempt s; rfl
  | succ n ih =>
      intro attempt s
      simp only [retryLoop]
      match net s.calls with
      | .success r => rfl
      | .empty => rfl
      | .timedOut =>
          by_cases h : n = 0
          · simp [h]
          · simp only [h, if_false]
            exact ih (attempt + 1) _
      | .unavailable => rfl
      | .otherError => rfl

theorem retryLoop_lookup_eq (net : ℕ → NetResponse) (key : ℤ × ℤ) :
    ∀ (fuel attempt : ℕ) (s : GeoState) (v : Option Loc),
      lookupCache s.cache key = none →
      lookupCache (retryLoop net key fuel attempt s).2.cache key = some v →
      (retryLoop net key fuel attempt s).1 = v := by
  intro fuel
  induction fuel with
  | zero =>
      intro attempt s v hnone hsome
      simp only [retryLoop] at hsome ⊢
      rw [hnone] at hsome
      exact absurd hsome (by simp)
  | succ n ih =>
      intro attempt s v hnone hsome
      simp only [retryLoop] at hsome ⊢
      match hnet : net s.calls with
      | .success r =>
          rw [hnet] at hsome
          simp only [lookupCache, if_pos rfl] at hsome
          exact Option.some.inj hsome
      | .empty =>
          rw [hnet] at hsome
          simp only at hsome
          rw [hnone] at hsome
          exact absurd hsome (by simp)
      | .timedOut =>
          rw [hnet] at hsome
          by_cases h : n = 0
          · simp only [h, if_true] at hsome
            rw [hnone] at hsome
            exact absurd hsome (by simp)
          · simp only [h, if_false] at hsome ⊢
            exact ih (attempt + 1) _ v hnone hsome
      | .unavailable =>
          rw [hnet] at hsome
          simp only at hsome
          rw [hnone] at hsome
          exact absurd hsome (by simp)
      | .otherError =>
          rw [hnet] at hsome
          simp only at hsome
          rw [hnone] at hsome
          exact absurd hsome (by simp)

theorem reverse_geocode_resolves (net : ℕ → NetResponse) (lat lon : ℚ)
    (s : GeoState) :
    (reverse_geocode net lat lon s).2.resolves = s.resolves + 1 := by
  simp only [reverse_geocode]
  match h : lookupCache s.cache (cacheKey lat lon) with
  | some r => simp [h]
  | none => simp [h, retryLoop_resolves]

end MediaOrganizer

namespace MediaOrganizer

/-- An oracle whose service is permanently unreachable. -/
def netUnavailable : ℕ → NetResponse := fun _ => NetResponse.unavailable

/-- An oracle that times out once and then answers. -/
def netTimedOutOnce : ℕ → NetResponse := fun k =>
  if k < 1 then NetResponse.timedOut else NetResponse.success none

/-- A fresh geocoder: empty cache, no requests issued. -/
def emptyGeoState : GeoState := ⟨[], 0, 0, []⟩

/-- C2, counterexample.  When the first `reverse_geocode` call fails (here:
the service is unavailable), nothing is cached, and a second call for the
same coordinate issues another network request: after the first call one
request has been made, after the second call two.  The claim that a second
call never issues a second network call therefore fails for no-result
outcomes that bypass the cache. -/
theorem reverse_geocode_second_call_hits_network :
    (reverse_geocode netUnavailable 1 1 emptyGeoState).2.calls = 1 ∧
    (reverse_geocode netUnavailable 1 1
        (reverse_geocode netUnavailable 1 1 emptyGeoState).2).2.calls = 2 := by
  constructor <;> decide

/-- A cache hit returns the cached optional result and touches nothing but
the invocation counter. -/
theorem reverse_geocode_eq_hit (net : ℕ → NetResponse) (lat lon : ℚ)
    (s : GeoState) (r : Option Loc)
    (hl : lookupCache s.cache (cacheKey lat lon) = some r) :
    reverse_geocode net lat lon s =
      (r, { s with resolves := s.resolves + 1 }) := by
  simp only [reverse_geocode, hl]

/-- A cache miss runs the retry loop. -/
theorem reverse_geocode_eq_miss (net : ℕ → NetResponse) (lat lon : ℚ)
    (s : GeoState)
    (hl : lookupCache s.cache (cacheKey lat lon) = none) :
    reverse_geocode net lat lon s =
      retryLoop net (cacheKey lat lon) maxRetries 0
        { s with resolves := s.resolves + 1 } := by
  simp only [reverse_geocode, hl]

/-- C2, amended.  Whenever the first `reverse_geocode` call leaves the
coordinate's 6-decimal key in the cache — which happens exactly when a raw
response was received, whether extraction yielded a location or `None` —
the value cached is the first call's result, and a second call with the
same coordinates returns that identical result while changing nothing but
the invocation counter: no network request, no sleep, no cache write.  (A
first call that returned `None` through a failure path caches nothing, and
a second call retries the network.) -/
theorem reverse_geocode_cached_second_call (net : ℕ → NetResponse)
    (lat lon : ℚ) (s : GeoState) (v : Option Loc)
    (h : lookupCache (reverse_geocode net lat lon s).2.cache
        (cacheKey lat lon) = some v) :
    (reverse_geocode net lat lon s).1 = v ∧
    reverse_geocode net lat lon (reverse_geocode net lat lon s).2 =
      (v, { (reverse_geocode net lat lon s).2 with
            resolves := (reverse_geocode net lat lon s).2.resolves + 1 }) := by
  have hfst : (reverse_geocode net lat lon s).1 = v := by
    cases hl : lookupCache s.cache (cacheKey lat lon) with
    | some r =>
        rw [reverse_geocode_eq_hit net lat lon s r hl] at h ⊢
        exact Option.some.inj (hl.symm.trans h)
    | none =>
        rw [reverse_geocode_eq_miss net lat lon s hl] at h ⊢
        exact retryLoop_lookup_eq net (cacheKey lat lon) maxRetries 0 _ v hl h
  refine ⟨hfst, ?_⟩
  rw [reverse_geocode_eq_hit net lat lon (reverse_geocode net lat lon s).2 v h]

/-- Witness for the amended C2 theorem: a service that answers at once
caches the answer, and the second call returns it from the cache. -/
theorem reverse_geocode_cached_second_call_witness :
    (reverse_geocode (fun _ => NetResponse.success none) 1 1
        emptyGeoState).1 = none ∧
    reverse_geocode (fun _ => NetResponse.success none) 1 1
        (reverse_geocode (fun _ => NetResponse.success none) 1 1
          emptyGeoState).2 =
      (none,
        { (reverse_geocode (fun _ => NetResponse.success none) 1 1
            emptyGeoState).2 with
          resolves := (reverse_geocode (fun _ => NetResponse.success none) 1 1
            emptyGeoState).2.resolves + 1 }) :=
  reverse_geocode_cached_second_call (fun _ => NetResponse.success none)
    1 1 emptyGeoState none (by
      rw [reverse_geocode_eq_miss (fun _ => NetResponse.success none) 1 1 emptyGeoState rfl]
      show lookupCache (retryLoop _ _ (2 + 1) 0 _).2.cache _ = _
      simp [retryLoop, lookupCache])

/-- C5.  On a cache miss, the retry loop of `reverse_geocode` behaves as
specified: a `GeocoderUnavailable`, any other error, or an empty response
aborts after the single request — no retry, no sleep — and returns `None`;
a timeout is retried with exponential backoff sleeps
`base_delay * 2 ** attempt`, and after `max_retries = 3` timed-out
attempts the call gives up (three requests, sleeps `[1, 2]`) and returns
`None`; a timeout followed by a response returns that response's value
after one backoff sleep. -/
theorem reverse_geocode_error_handling (net : ℕ → NetResponse)
    (lat lon : ℚ) (s : GeoState)
    (hmiss : lookupCache s.cache (cacheKey lat lon) = none) :
    (net s.calls = NetResponse.unavailable →
      reverse_geocode net lat lon s =
        (none, { s with resolves := s.resolves + 1, calls := s.calls + 1 })) ∧
    (net s.calls = NetResponse.otherError →
      reverse_geocode net lat lon s =
        (none, { s with resolves := s.resolves + 1, calls := s.calls + 1 })) ∧
    (net s.calls = NetResponse.empty →
      reverse_geocode net lat lon s =
        (none, { s with resolves := s.resolves + 1, calls := s.calls + 1 })) ∧
    (net s.calls = NetResponse.timedOut →
      net (s.calls + 1) = NetResponse.timedOut →
      net (s.calls + 2) = NetResponse.timedOut →
      reverse_geocode net lat lon s =
        (none, { s with
                 resolves := s.resolves + 1
                 calls := s.calls + 3
                 sleeps := s.sleeps ++ [baseDelay * 2 ^ 0, baseDelay * 2 ^ 1] })) ∧
    (∀ v, net s.calls = NetResponse.timedOut →
      net (s.calls + 1) = NetResponse.success v →
      reverse_geocode net lat lon s =
        (v, { s with
              resolves := s.resolves + 1
              calls := s.calls + 2
              cache := (cacheKey lat lon, v) :: s.cache
              sleeps := s.sleeps ++ [baseDelay * 2 ^ 0] })) := by
  have hrw : reverse_geocode net lat lon s =
      retryLoop net (cacheKey lat lon) 3 0 { s with resolves := s.resolves + 1 } := by
    simp only [reverse_geocode, maxRetries, hmiss]
  refine ⟨?_, ?_, ?_, ?_, ?_⟩
  · intro h1
    rw [hrw]
    show retryLoop net (cacheKey lat lon) (2 + 1) 0 _ = _
    simp only [retryLoop, h1]
  · intro h1
    rw [hrw]
    show retryLoop net (cacheKey lat lon) (2 + 1) 0 _ = _
    simp only [retryLoop, h1]
  · intro h1
    rw [hrw]
    show retryLoop net (cacheKey lat lon) (2 + 1) 0 _ = _
    simp only [retryLoop, h1]
  · intro h1 h2 h3
    rw [hrw]
    show retryLoop net (cacheKey lat lon) (2 + 1) 0 _ = _
    simp only [retryLoop, h1, h2, h3]
    norm_num
  · intro v h1 h2
    rw [hrw]
    show retryLoop net (cacheKey lat lon) (2 + 1) 0 _ = _
    simp only [retryLoop, h1, h2]
    norm_num

/-- Witness for C5: an oracle that times out on the first request and then
answers; starting from a fresh geocoder the call sleeps `1` second, retries,
and returns the second attempt's value, which is cached. -/
theorem reverse_geocode_error_handling_witness :
    reverse_geocode netTimedOutOnce 1 1 emptyGeoState =
      (none, { emptyGeoState with
               resolves := 0 + 1
               calls := 0 + 2
               cache := (cacheKey 1 1, none) :: emptyGeoState.cache
               sleeps := emptyGeoState.sleeps ++ [baseDelay * 2 ^ 0] }) := by
  have h := (reverse_geocode_error_handling netTimedOutOnce 1 1 emptyGeoState
    (by decide)).2.2.2.2 none (by decide) (by decide)
  simpa using h

end MediaOrganizer

namespace MediaOrganizer

/-! ## Lemmas about the batch resolver -/

theorem assignGroup_eq (r : Option Loc) :
    ∀ (g : List Coord) (m : Coord → Option (Option Loc)) (c : Coord),
      assignGroup r g m c = if c ∈ g then some r else m c := by
  intro g
  induction g with
  | nil => intro m c; simp [assignGroup]
  | cons d t ih =>
      intro m c
      show assignGroup r t (fun x => if x = d then some r else m x) c = _
      rw [ih]
      by_cases hct : c ∈ t
      · simp [hct, List.mem_cons]
      · by_cases hcd : c = d
        · simp [hct, hcd]
        · simp [hct, hcd]

theorem batch_fold_frame (net : ℕ → NetResponse) :
    ∀ (groups : List (List Coord)) (m : Coord → Option (Option Loc))
      (s : GeoState) (c : Coord), (∀ g ∈ groups, c ∉ g) →
      (batch_fold net groups m s).1 c = m c := by
  intro groups
  induction groups with
  | nil => intro m s c _; rfl
  | cons g rest ih =>
      intro m s c h
      match g with
      | [] =>
          show (batch_fold net rest m s).1 c = m c
          exact ih m s c fun g2 hg2 => h g2 (List.mem_cons_of_mem _ hg2)
      | rep :: gt =>
          show (batch_fold net rest (assignGroup _ (rep :: gt) m) _).1 c = m c
          rw [ih _ _ c fun g2 hg2 => h g2 (List.mem_cons_of_mem _ hg2)]
          rw [assignGroup_eq]
          simp [h (rep :: gt) (List.mem_cons_self _ _)]

theorem batch_fold_isSome_mono (net : ℕ → NetResponse) :
    ∀ (groups : List (List Coord)) (m : Coord → Option (Option Loc))
      (s : GeoState) (c : Coord), (m c).isSome = true →
      ((batch_fold net groups m s).1 c).isSome = true := by
  intro groups
  induction groups with
  | nil => intro m s c h; exact h
  | cons g rest ih =>
      intro m s c h
      match g with
      | [] => exact ih m s c h
      | rep :: gt =>
          refine ih _ _ c ?_
          rw [assignGroup_eq]
          by_cases hc : c ∈ rep :: gt
          · simp [hc]
          · simpa [hc] using h

theorem batch_fold_total (net : ℕ → NetResponse) :
    ∀ (groups : List (List Coord)) (m : Coord → Option (Option Loc))
      (s : GeoState) (c : Coord) (g : List Coord), g ∈ groups → c ∈ g →
      ((batch_fold net groups m s).1 c).isSome = true := by
  intro groups
  induction groups with
  | nil => intro m s c g hg _; simp at hg
  | cons g0 rest ih =>
      intro m s c g hg hc
      rcases List.mem_cons.mp hg with rfl | hgr
      · match g, hc with
        | rep :: gt, hc =>
            refine batch_fold_isSome_mono net rest _ _ c ?_
            rw [assignGroup_eq]
            simp [hc]
      · match g0 with
        | [] => exact ih m s c g hgr hc
        | rep :: gt => exact ih _ _ c g hgr hc

theorem batch_fold_resolves (net : ℕ → NetResponse) :
    ∀ (groups : List (List Coord)) (m : Coord → Option (Option Loc))
      (s : GeoState), (∀ g ∈ groups, g ≠ []) →
      (batch_fold net groups m s).2.resolves = s.resolves + groups.length := by
  intro groups
  induction groups with
  | nil => intro m s _; simp [batch_fold]
  | cons g0 rest ih =>
      intro m s h
      match g0, h g0 (List.mem_cons_self _ _) with
      | rep :: gt, _ =>
          show (batch_fold net rest _ (reverse_geocode net rep.1 rep.2 s).2).2.resolves = _
          rw [ih _ _ fun g2 hg2 => h g2 (List.mem_cons_of_mem _ hg2)]
          rw [reverse_geocode_resolves]
          simp [List.length_cons]
          omega

theorem batch_fold_group_eq (net : ℕ → NetResponse) :
    ∀ (groups : List (List Coord)) (m : Coord → Option (Option Loc))
      (s : GeoState) (g : List Coord) (c d : Coord),
      groups.Pairwise (fun g1 g2 => ∀ a ∈ g1, ∀ b ∈ g2, a ≠ b) →
      g ∈ groups → c ∈ g → d ∈ g →
      (batch_fold net groups m s).1 c = (batch_fold net groups m s).1 d := by
  intro groups
  induction groups with
  | nil => intro m s g c d _ hg _ _; simp at hg
  | cons g0 rest ih =>
      intro m s g c d hpw hg hc hd
      have hpw' := List.pairwise_cons.mp hpw
      rcases List.mem_cons.mp hg with rfl | hgr
      · match g, hc, hd with
        | rep :: gt, hc, hd =>
            have hcnot : ∀ g2 ∈ rest, c ∉ g2 := fun g2 hg2 hcg2 =>
              hpw'.1 g2 hg2 c hc c hcg2 rfl
            have hdnot : ∀ g2 ∈ rest, d ∉ g2 := fun g2 hg2 hdg2 =>
              hpw'.1 g2 hg2 d hd d hdg2 rfl
            show (batch_fold net rest (assignGroup _ (rep :: gt) m) _).1 c =
              (batch_fold net rest (assignGroup _ (rep :: gt) m) _).1 d
            rw [batch_fold_frame net rest _ _ c hcnot,
              batch_fold_frame net rest _ _ d hdnot]
            rw [assignGroup_eq, assignGroup_eq]
            simp [hc, hd]
      · match g0 with
        | [] => exact ih m s g c d hpw'.2 hgr hc hd
        | rep :: gt => exact ih _ _ g c d hpw'.2 hgr hc hd

/-! ## Value-level clusterer lemmas -/

theorem groupLoopFuel_nil (tol : ℚ) : ∀ fuel, groupLoopFuel tol fuel [] = [] := by
  intro fuel
  cases fuel <;> rfl

theorem group_similar_coordinates_flatten_perm (coords : List Coord) (tol : ℚ) :
    (group_similar_coordinates coords tol).flatten.Perm coords := by
  have h := groupLoopFuel_flatten_perm tol coords.enum.length coords.enum le_rfl
  rw [group_similar_coordinates, ← List.map_flatten]
  have h2 := h.map Prod.snd
  rwa [List.enum_map_snd] at h2

theorem group_similar_coordinates_ne_nil (coords : List Coord) (tol : ℚ)
    (g : List Coord) (hg : g ∈ group_similar_coordinates coords tol) :
    g ≠ [] := by
  obtain ⟨gi, hgi, rfl⟩ := List.mem_map.mp hg
  have := groupLoopFuel_ne_nil tol coords.enum.length coords.enum gi hgi
  simpa using this

theorem group_similar_coordinates_pairwise_ne (coords : List Coord) (tol : ℚ) :
    (group_similar_coordinates coords tol).Pairwise
      (fun g1 g2 => ∀ a ∈ g1, ∀ b ∈ g2, a ≠ b) := by
  have h := groupLoopFuel_pairwise_value tol coords.enum.length coords.enum
  rw [group_similar_coordinates]
  refine List.pairwise_map.mpr (h.imp ?_)
  intro gi gj hr a ha b hb hab
  obtain ⟨p, hp, rfl⟩ := List.mem_map.mp ha
  obtain ⟨q, hq, rfl⟩ := List.mem_map.mp hb
  exact hr p hp q hq hab

theorem group_single (c0 : Coord) (ct : List Coord) (tol : ℚ)
    (hall : ∀ c ∈ c0 :: ct, ∀ d ∈ c0 :: ct, closeB c d tol = true) :
    group_similar_coordinates (c0 :: ct) tol = [c0 :: ct] := by
  rw [group_similar_coordinates, groupLoop, List.enum_cons]
  have hlen : ((0, c0) :: ct.enumFrom 1).length = ct.length + 1 := by
    simp [List.enumFrom_length]
  rw [hlen]
  show (((0, c0) :: (ct.enumFrom 1).filter fun q => closeB c0 q.2 tol) ::
      groupLoopFuel tol ct.length
        ((ct.enumFrom 1).filter fun q => !closeB c0 q.2 tol)).map
      (List.map Prod.snd) = _
  have hfix : ∀ q ∈ ct.enumFrom 1, closeB c0 q.2 tol = true := by
    intro q hq
    have hq2 : q.2 ∈ ct := by
      have := List.mem_map_of_mem Prod.snd hq
      rwa [List.enumFrom_map_snd] at this
    exact hall c0 (List.mem_cons_self _ _) q.2 (List.mem_cons_of_mem _ hq2)
  rw [List.filter_eq_self.mpr hfix]
  have hnil : (ct.enumFrom 1).filter (fun q => !closeB c0 q.2 tol) = [] := by
    rw [List.filter_eq_nil_iff]
    intro q hq
    simp [hfix q hq]
  rw [hnil, groupLoopFuel_nil]
  simp [List.enumFrom_map_snd]

/-- C3.  `batch_reverse_geocode` performs exactly one `reverse_geocode`
invocation per coordinate group, on the group's representative (its first
element), and broadcasts that single result to every coordinate of the
group: all members of one group receive the same entry in the returned
mapping.  In particular, when all submitted coordinates are pairwise
within the default tolerance, exactly one resolution is issued and every
coordinate receives the result of resolving the first coordinate. -/
theorem batch_reverse_geocode_per_group (net : ℕ → NetResponse)
    (coords : List Coord) (s : GeoState) :
    ((batch_reverse_geocode net coords s).2.resolves =
      s.resolves + (group_similar_coordinates coords defaultTolerance).length) ∧
    (∀ g ∈ group_similar_coordinates coords defaultTolerance, ∀ c ∈ g, ∀ d ∈ g,
      (batch_reverse_geocode net coords s).1 c =
        (batch_reverse_geocode net coords s).1 d) ∧
    ((∀ c ∈ coords, ∀ d ∈ coords, closeB c d defaultTolerance = true) →
      ∀ c0 ct, coords = c0 :: ct →
        (batch_reverse_geocode net coords s).2.resolves = s.resolves + 1 ∧
        ∀ c ∈ coords, (batch_reverse_geocode net coords s).1 c =
          some (reverse_geocode net c0.1 c0.2 s).1) := by
  refine ⟨?_, ?_, ?_⟩
  · exact batch_fold_resolves net _ _ s
      (group_similar_coordinates_ne_nil coords defaultTolerance)
  · intro g hg c hc d hd
    exact batch_fold_group_eq net _ _ s g c d
      (group_similar_coordinates_pairwise_ne coords defaultTolerance) hg hc hd
  · intro hall c0 ct hcoords
    subst hcoords
    have hsingle := group_single c0 ct defaultTolerance hall
    constructor
    · rw [batch_reverse_geocode, hsingle]
      show (batch_fold net [] _ (reverse_geocode net c0.1 c0.2 s).2).2.resolves = _
      simp [batch_fold, reverse_geocode_resolves]
    · intro c hcm
      rw [batch_reverse_geocode, hsingle]
      show (batch_fold net [] (assignGroup _ (c0 :: ct) _)
        (reverse_geocode net c0.1 c0.2 s).2).1 c = _
      show assignGroup _ (c0 :: ct) _ c = _
      rw [assignGroup_eq]
      simp [hcm]

/-- C10.  The mapping returned by `batch_reverse_geocode` holds an entry
for every submitted coordinate — a lookup by any input coordinate finds an
entry (which stores `None` when the group's resolution failed). -/
theorem batch_reverse_geocode_total (net : ℕ → NetResponse)
    (coords : List Coord) (s : GeoState) (c : Coord) (hc : c ∈ coords) :
    ((batch_reverse_geocode net coords s).1 c).isSome = true := by
  have hperm := group_similar_coordinates_flatten_perm coords defaultTolerance
  have hcf : c ∈ (group_similar_coordinates coords defaultTolerance).flatten :=
    hperm.mem_iff.mpr hc
  obtain ⟨g, hg, hcg⟩ := List.mem_flatten.mp hcf
  exact batch_fold_total net _ _ s c g hg hcg

/-- Witness for C10 at a concrete input: the batch mapping for the single
coordinate `(0, 0)` holds an entry for it. -/
theorem batch_reverse_geocode_total_witness :
    ((batch_reverse_geocode netUnavailable [((0:ℚ), (0:ℚ))]
      emptyGeoState).1 (0, 0)).isSome = true :=
  batch_reverse_geocode_total netUnavailable [((0:ℚ), (0:ℚ))]
    emptyGeoState (0, 0) (List.mem_singleton.mpr rfl)

end MediaOrganizer

namespace MediaOrganizer

/-- C4, counterexample.  The plan's folder key for a location that
resolved to `Location("Unknown","Unknown","Unknown")` — reachable, since
`_extract_country_state_city` returns that tuple for an address with no
usable fields — is the nested `"Unknown/Unknown/Unknown"`, not the single
`"Unknown"` bucket: the plan report does not collapse all-Unknown
locations. -/
theorem plan_folder_key_all_unknown_not_collapsed :
    plan_folder_key (some ⟨"Unknown", "Unknown", "Unknown"⟩) =
        "Unknown/Unknown/Unknown" ∧
      plan_folder_key (some ⟨"Unknown", "Unknown", "Unknown"⟩) ≠ "Unknown" := by
  refine ⟨rfl, ?_⟩
  decide

/-- C4, amended.  Placement does collapse the all-Unknown location:
`create_location_directory` creates the single `destination_root/Unknown`
directory for it.  The plan report, however, aggregates a file under the
key `"Unknown"` only when its resolution returned no location at all; a
resolution that produced `Location("Unknown","Unknown","Unknown")` is
aggregated under `"Unknown/Unknown/Unknown"`. -/
theorem create_location_directory_unknown_collapse (destinationRoot : String) :
    create_location_directory destinationRoot "Unknown" "Unknown" "Unknown" =
        [destinationRoot, "Unknown"] ∧
      plan_folder_key none = "Unknown" := by
  refine ⟨?_, rfl⟩
  have hs : sanitize_filename "Unknown" = "Unknown" := by decide
  simp [create_location_directory, hs]

/-! ## Lemmas about the sampling fallback -/

theorem everyNthFuel_length_mul {α : Type} (step : ℕ) (hstep : 1 ≤ step) :
    ∀ (fuel : ℕ) (l : List α), l.length ≤ fuel →
      l.length ≤ (everyNthFuel fuel l step).length * step := by
  intro fuel
  induction fuel with
  | zero =>
      intro l hl
      have : l = [] := List.eq_nil_of_length_eq_zero (Nat.le_zero.mp hl)
      subst this
      simp
  | succ n ih =>
      intro l hl
      match l with
      | [] => simp [everyNthFuel]
      | a :: rest =>
          have hr : rest.length ≤ n := by
            simpa using Nat.succ_le_succ_iff.mp (by simpa using hl)
          have h1 : (rest.drop (step - 1)).length ≤ n := by
            rw [List.length_drop]
            omega
          have hthis := ih _ h1
          rw [List.length_drop] at hthis
          show (a :: rest).length ≤
            (a :: everyNthFuel n (rest.drop (step - 1)) step).length * step
          simp only [List.length_cons, Nat.succ_mul]
          generalize (everyNthFuel n (rest.drop (step - 1)) step).length * step = K
            at hthis ⊢
          omega

theorem everyNthFuel_getElem {α : Type} (step : ℕ) (hstep : 1 ≤ step) :
    ∀ (fuel : ℕ) (l : List α) (k : ℕ), l.length ≤ fuel →
      (everyNthFuel fuel l step)[k]? = l[k * step]? := by
  intro fuel
  induction fuel with
  | zero =>
      intro l k hl
      have : l = [] := List.eq_nil_of_length_eq_zero (Nat.le_zero.mp hl)
      subst this
      simp [everyNthFuel]
  | succ n ih =>
      intro l k hl
      match l with
      | [] => simp [everyNthFuel]
      | a :: rest =>
          match k with
          | 0 => simp [everyNthFuel]
          | k + 1 =>
              show (a :: everyNthFuel n (rest.drop (step - 1)) step)[k + 1]? =
                (a :: rest)[(k + 1) * step]?
              rw [List.getElem?_cons_succ]
              rw [ih (rest.drop (step - 1)) k
                (by rw [List.length_drop]; simp at hl; omega)]
              rw [List.getElem?_drop]
              have harith : (k + 1) * step = (step - 1 + k * step) + 1 := by
                obtain ⟨st, rfl⟩ : ∃ st, step = st + 1 := ⟨step - 1, by omega⟩
                simp only [Nat.add_sub_cancel]
                ring
              rw [harith, List.getElem?_cons_succ]

/-- C7.  The sampling fallback of `plan_organization`/`process_files`:
the sample holds exactly `min 5000 n` coordinates of the `n` submitted —
all of them when `n ≤ 5000`; when `n > 5000` it is the fixed-stride
systematic sample, its `k`-th element being the input element at index
`k * (n / 5000)`; and a coordinate absent from the sample's result
mapping is routed to the folder key `"Unknown"`.  (The trigger — the
15-minute watchdog expiring or the batch resolver raising — is a
wall-clock/threading concern; what is modelled is the fallback
computation the triggered branch runs.) -/
theorem sample_coordinates_spec (allCoords : List Coord) :
    ((sample_coordinates allCoords).length = min 5000 allCoords.length) ∧
    (allCoords.length ≤ 5000 → sample_coordinates allCoords = allCoords) ∧
    (∀ k, 5000 < allCoords.length → k < 5000 →
      (sample_coordinates allCoords)[k]? =
        allCoords[k * (allCoords.length / 5000)]?) ∧
    (∀ (results : Coord → Option (Option Loc)) (c : Coord),
      results c = none → fallback_folder_key results c = "Unknown") := by
  by_cases hle : allCoords.length ≤ 5000
  · have hsample : sample_coordinates allCoords = allCoords := by
      have hmin : min 5000 allCoords.length = allCoords.length :=
        min_eq_right hle
      simp [sample_coordinates, hmin]
    refine ⟨?_, fun _ => hsample, ?_, ?_⟩
    · rw [hsample, min_eq_right hle]
    · intro k hk
      omega
    · intro results c hc
      simp [fallback_folder_key, hc]
  · push_neg at hle
    have hmin : min 5000 allCoords.length = 5000 := min_eq_left (le_of_lt hle)
    have hstep : 1 ≤ allCoords.length / 5000 :=
      (Nat.one_le_div_iff (by norm_num)).mpr (le_of_lt hle)
    have hsample : sample_coordinates allCoords =
        (every_nth allCoords (allCoords.length / 5000)).take 5000 := by
      simp only [sample_coordinates, hmin]
      rw [if_pos hle]
    have hlen5000 : 5000 ≤ (every_nth allCoords (allCoords.length / 5000)).length := by
      by_contra hcon
      push_neg at hcon
      have hmul := everyNthFuel_length_mul (allCoords.length / 5000) hstep
        allCoords.length allCoords le_rfl
      have hL : (every_nth allCoords (allCoords.length / 5000)).length ≤ 4999 := by
        have := hcon
        simp only [every_nth] at this ⊢
        omega
      have hLe : (every_nth allCoords (allCoords.length / 5000)).length *
          (allCoords.length / 5000) ≤ 4999 * (allCoords.length / 5000) :=
        Nat.mul_le_mul_right _ hL
      have hdiv : 5000 * (allCoords.length / 5000) ≤ allCoords.length := by
        have := Nat.div_mul_le_self allCoords.length 5000
        omega
      simp only [every_nth] at hLe
      have hchain : allCoords.length ≤ 4999 * (allCoords.length / 5000) :=
        le_trans hmul hLe
      generalize hq : allCoords.length / 5000 = q at hchain hdiv hstep
      omega
    refine ⟨?_, fun h => absurd h (not_le.mpr hle), ?_, ?_⟩
    · rw [hsample, List.length_take, hmin]
      omega
    · intro k _ hk
      rw [hsample, List.getElem?_take]
      rw [if_pos hk]
      exact everyNthFuel_getElem (allCoords.length / 5000) hstep
        allCoords.length allCoords k le_rfl
    · intro results c hc
      simp [fallback_folder_key, hc]

end MediaOrganizer

namespace MediaOrganizer

/-! ## Lemmas about fast mode -/

theorem addFile_mem_self (fs : FolderStructure) (key file : String) :
    file ∈ addFile fs key file key := by
  simp [addFile]

theorem addFile_mem_mono (fs : FolderStructure) (key file x k : String)
    (h : x ∈ fs k) : x ∈ addFile fs key file k := by
  by_cases hk : k = key
  · subst hk
    have he : addFile fs k file k = fs k ++ [file] := by simp [addFile]
    rw [he]
    exact List.mem_append_left _ h
  · simpa [addFile, hk] using h

theorem addFile_other (fs : FolderStructure) (key file k : String)
    (h : k ≠ key) : addFile fs key file k = fs k := by
  simp [addFile, h]

theorem foldl_addFile_mono (l : List (String × Coord)) :
    ∀ (fs : FolderStructure) (x : String), x ∈ fs "Unknown" →
      x ∈ (l.foldl (fun fs q => addFile fs "Unknown" q.1) fs) "Unknown" := by
  induction l with
  | nil => intro fs x h; exact h
  | cons q t ih =>
      intro fs x h
      exact ih _ x (addFile_mem_mono fs "Unknown" q.1 x "Unknown" h)

theorem foldl_addFile_mem (l : List (String × Coord)) :
    ∀ (fs : FolderStructure) (p : String × Coord), p ∈ l →
      p.1 ∈ (l.foldl (fun fs q => addFile fs "Unknown" q.1) fs) "Unknown" := by
  induction l with
  | nil => intro fs p h; simp at h
  | cons q t ih =>
      intro fs p h
      rcases List.mem_cons.mp h with rfl | ht
      · exact foldl_addFile_mono t _ p.1 (addFile_mem_self fs "Unknown" p.1)
      · exact ih _ p ht

theorem foldl_addFile_other (l : List (String × Coord)) :
    ∀ (fs : FolderStructure) (k : String), k ≠ "Unknown" →
      (l.foldl (fun fs q => addFile fs "Unknown" q.1) fs) k = fs k := by
  induction l with
  | nil => intro fs k _; rfl
  | cons q t ih =>
      intro fs k h
      show (t.foldl (fun fs q => addFile fs "Unknown" q.1)
        (addFile fs "Unknown" q.1)) k = fs k
      rw [ih _ k h, addFile_other fs "Unknown" q.1 k h]

theorem plan_fast_mode_eq (coordinatesData : List (String × Coord))
    (fs0 : FolderStructure) (s : GeoState) :
    plan_fast_mode coordinatesData fs0 s =
      (coordinatesData.foldl (fun fs q => addFile fs "Unknown" q.1)
        (coordinatesData.foldl (fun fs q => addFile fs "Unknown" q.1) fs0),
       s) := rfl

/-- C8.  With more than 1000 coordinate-bearing files and fast mode
selected, the fast-mode branch of `plan_organization` routes every file to
the folder key `"Unknown"` (each file is in fact appended to that bucket
twice — once by the fast-mode loop and once by the unconditional
result-processing loop running on the empty result dictionary), touches no
other folder key, and leaves the geocoder state untouched: zero
`reverse_geocode` invocations and zero network requests are made. -/
theorem plan_fast_mode_routes_unknown (coordinatesData : List (String × Coord))
    (fs0 : FolderStructure) (s : GeoState)
    (_hbig : 1000 < coordinatesData.length) :
    (∀ p ∈ coordinatesData, p.1 ∈ (plan_fast_mode coordinatesData fs0 s).1 "Unknown") ∧
    (∀ k, k ≠ "Unknown" → (plan_fast_mode coordinatesData fs0 s).1 k = fs0 k) ∧
    (plan_fast_mode coordinatesData fs0 s).2 = s := by
  rw [plan_fast_mode_eq]
  refine ⟨?_, ?_, rfl⟩
  · intro p hp
    exact foldl_addFile_mono coordinatesData _ p.1
      (foldl_addFile_mem coordinatesData fs0 p hp)
  · intro k hk
    have h1 := foldl_addFile_other coordinatesData
      (coordinatesData.foldl (fun fs q => addFile fs "Unknown" q.1) fs0) k hk
    have h2 := foldl_addFile_other coordinatesData fs0 k hk
    exact h1.trans h2

/-- Witness for C8 at a concrete input: a dataset of 1001 files at the
same coordinate, fast mode selected — the file lands in the `"Unknown"`
bucket. -/
theorem plan_fast_mode_routes_unknown_witness :
    "file.jpg" ∈ (plan_fast_mode
      (List.replicate 1001 ("file.jpg", ((0:ℚ), (0:ℚ))))
      (fun _ => []) emptyGeoState).1 "Unknown" :=
  (plan_fast_mode_routes_unknown
      (List.replicate 1001 ("file.jpg", ((0:ℚ), (0:ℚ))))
      (fun _ => []) emptyGeoState
      (by rw [List.length_replicate]; norm_num)).1
    ("file.jpg", ((0:ℚ), (0:ℚ))) (List.mem_replicate.mpr ⟨by norm_num, rfl⟩)

/-- C9.  When the destination file already exists, `copy_file` and
`move_file` perform no copy, no move and no overwrite — the filesystem is
returned unchanged, whether the existing content is byte-identical or
different — the skipped-files counter is incremented by one, and the call
reports success (`True`). -/
theorem copy_move_skip_existing_destination (fs : FS) (skipped : ℕ)
    (sourcePath destDir : String) (srcContent destContent : List ℕ)
    (hsrc : fs.files sourcePath = some srcContent)
    (hdest : fs.files (destDir ++ "/" ++ baseName sourcePath) = some destContent) :
    copy_file fs skipped sourcePath destDir = (true, fs, skipped + 1) ∧
    move_file fs skipped sourcePath destDir = (true, fs, skipped + 1) := by
  constructor
  · simp only [copy_file, hsrc, hdest]
    split <;> rfl
  · simp only [move_file, hsrc, hdest]
    split <;> rfl

/-- A two-file filesystem: a source file and a destination file with
different content. -/
def fsExample : FS :=
  ⟨fun p => if p = "src/a.jpg" then some [1]
    else if p = "dst/a.jpg" then some [2] else none⟩

/-- Witness for C9 at a concrete input: copying or moving `src/a.jpg`
over the existing (different) `dst/a.jpg` changes nothing, bumps the
skipped counter and reports success. -/
theorem copy_move_skip_existing_destination_witness :
    copy_file fsExample 0 "src/a.jpg" "dst" = (true, fsExample, 0 + 1) ∧
    move_file fsExample 0 "src/a.jpg" "dst" = (true, fsExample, 0 + 1) :=
  copy_move_skip_existing_destination fsExample 0 "src/a.jpg" "dst" [1] [2]
    rfl rfl

end MediaOrganizer
